import Mathlib

/-!
# Verification of the embellij static-site pipeline

A shallow embedding of `src/embellij.js`, a single-file static web site
generator: page resolution with cache-driven staleness, index aggregation
(filter / stable sort / reverse / truncate), the write-skip rule, template
resolution, the non-ASCII escaping of rendered HTML, and cache persistence.

Modelling conventions:
* JavaScript strings are UTF-16 code-unit sequences; `charCodeAt` yields a
  code unit.  Where that matters (the escaping function) we work with
  `List Nat` of code units and encode Unicode code points by hand.
* Timestamps are modelled as `Option Nat`: `some t` is a parseable time
  value (`Date.parse` result), `none` is JavaScript `undefined`/`null`
  (whose `Date.parse` is `NaN`; every `==`/`>=` comparison with `NaN`
  is false, which the comparison helpers below reproduce).
* JavaScript truthiness: `null`, `undefined`, `""` and `0` are falsy.
-/

namespace Embellij

/-- JS truthiness of an optional boolean property (`undefined` is falsy). -/
def jsTruthyBool : Option Bool → Bool
  | none => false
  | some b => b

/-- JS truthiness of an optional number (`null`, `undefined` and `0` are falsy). -/
def jsTruthyNum : Option Nat → Bool
  | none => false
  | some k => k != 0

/-- JS truthiness of an optional string (`null`, `undefined` and `""` are falsy). -/
def jsTruthyStr : Option String → Bool
  | none => false
  | some s => s != ""

/-- JS `==` between a number and an `Option`al parsed time (`NaN` never equal). -/
def jsEqTime (t : Nat) : Option Nat → Bool
  | none => false
  | some u => t == u

/-- JS `>=` between a number and an `Option`al parsed time (false on `NaN`). -/
def jsGeTime (t : Nat) : Option Nat → Bool
  | none => false
  | some u => t ≥ u

/-! ## Non-ASCII escaping (`convertUnicodeCharsToHtml`, src lines 59-76)

The JS function walks the string one UTF-16 code unit at a time
(`str.charCodeAt(i)`), keeps units `<= 127` verbatim and emits
`'&#' + c + ';'` (the unit's decimal digits) otherwise. -/

/-- Decimal digit expansion of `n` as ASCII codes, most significant first.
`fuel` is a structural-recursion bound; `fuel = n + 1` always suffices
because a number has at most `n + 1` decimal digits. -/
def decDigitsAux : Nat → Nat → List Nat
  | 0, _ => []
  | fuel + 1, n => if n < 10 then [48 + n] else decDigitsAux fuel (n / 10) ++ [48 + n % 10]

/-- ASCII codes of the decimal representation of `n` (JS number-to-string). -/
def decDigits (n : Nat) : List Nat := decDigitsAux (n + 1) n

/-- The numeric character reference `&#n;` as ASCII codes (38 `&`, 35 `#`, 59 `;`). -/
def numericRef (n : Nat) : List Nat := 38 :: 35 :: (decDigits n ++ [59])

/-- One step of the escaping loop: a unit `<= 127` passes through, any other
unit becomes its decimal numeric reference. -/
def escapeUnit (c : Nat) : List Nat := if c ≤ 127 then [c] else numericRef c

/-- `convertUnicodeCharsToHtml` (src lines 59-76) on a UTF-16 code-unit
sequence: the JS loop appends, unit by unit, either the unit itself
(`c <= 127`) or `'&#' + c + ';'`. -/
def convertUnicodeCharsToHtml (units : List Nat) : List Nat :=
  units.flatMap escapeUnit

/-- UTF-16 encoding of one Unicode code point: BMP code points are a single
unit, supplementary code points become a surrogate pair. -/
def utf16Unit (cp : Nat) : List Nat :=
  if cp < 65536 then [cp]
  else [55296 + (cp - 65536) / 1024, 56320 + (cp - 65536) % 1024]

/-- UTF-16 encoding of a sequence of Unicode code points, as a JS string
holds it. -/
def utf16Encode (cps : List Nat) : List Nat := cps.flatMap utf16Unit

/-! ## Data model: `defaultPage` (src lines 104-123) and the site object
(src lines 316-330)

Scalar values follow the JS defaults; JS `null` becomes `none` for
optional fields and `""` for the string fields whose only use is a
truthiness test (`slug`, `url`, `target` — `null` and `""` behave
identically there).  `sortVal` models `page[sortKey]`, the value of the
numeric field named by the index page's `sortKey`, which lodash `sortBy`
reads dynamically. -/

structure PageCore where
  template : String := "default.pug"
  filename : String := ""
  checksum : String := ""
  excerpt : String := ""
  content : String := ""
  title : String := ""
  category : String := ""
  relSiteUrl : String := ""
  dateFormatString : Option String := none
  date : Option Nat := none
  modified : Option Nat := none
  writeTime : Option Nat := none
  slug : String := ""
  url : String := ""
  target : String := ""
  index : Bool := false
  sortKey : Option String := none
  sortVal : Int := 0
  sortReverse : Bool := true
  maxSubpages : Option Nat := none
deriving DecidableEq, Repr

/-- A page record: the scalar fields plus the computed `subpages` list.
`subpages` holds references to other pages; the embedding stores them one
level deep (as `PageCore`), which is the only depth any pipeline step
inspects. -/
structure Page extends PageCore where
  subpages : List PageCore := []
deriving DecidableEq, Repr

/-- `defaultPage` (src lines 104-123): the fresh-page defaults, cloned at
the start of each file's resolution.  `modified` and `writeTime` are not
in the JS literal (reading them yields `undefined`), hence `none`. -/
def defaultPage : Page := {}

/-- The site object (src lines 316-330): configuration plus accumulated
`files` and `pages`. -/
structure Site where
  url : String := ""
  outputDir : String := "."
  files : List String := []
  contentDir : String := ""
  pages : List Page := []
  templateDir : String := "."
  mediaDir : String := "."
  cachedPages : String := ""
  readExts : List String := [".md", ".txt", ".mkd", ".markdown"]
  writeExt : String := ".html"
  dateFormatString : String := "fullDate"
  recursive : Bool := false
  force : Bool := false
deriving DecidableEq, Repr

/-! ## Path helpers (Node `path`, POSIX)

External standard-library collaborators, modelled only as far as the
pipeline exercises them.  `pathJoin` does not normalize `.` / `..`
segments and `pathRelative` handles the prefix and ancestor cases only;
no claim depends on the unmodelled corners. -/

/-- Node `path.basename`: the portion after the last `/`. -/
def pathBasename (s : String) : String :=
  ⟨(s.data.reverse.takeWhile (fun c => c ≠ '/')).reverse⟩

/-- Node `path.extname`: from the last `.` of the basename to the end,
empty when the basename has no dot or only a leading dot. -/
def pathExtname (s : String) : String :=
  let b := (pathBasename s).data
  let tail := b.reverse.takeWhile (fun c => c ≠ '.')
  if tail.length < b.length ∧ tail.length + 1 ≠ b.length then ⟨'.' :: tail.reverse⟩ else ""

/-- `stripExtOfPathname` (src lines 54-57): `filename.substring(0, length - extname.length)`. -/
def stripExtOfPathname (filename : String) : String :=
  ⟨filename.data.take (filename.length - (pathExtname filename).length)⟩

/-- Node `path.dirname`: the portion before the last `/`, `"."` when there
is no `/`. -/
def pathDirname (s : String) : String :=
  match s.data.reverse.dropWhile (fun c => c ≠ '/') with
  | [] => "."
  | _ :: rest => if rest = [] then "/" else ⟨rest.reverse⟩

/-- Node `path.join` of two segments (without `.` / `..` normalization). -/
def pathJoin (a b : String) : String :=
  if a = "" then b else if b = "" then a else a ++ "/" ++ b

/-- `".."` repeated once per path segment of `s`, joined with `/`. -/
def upDirs (s : String) : String :=
  ⟨(List.replicate (s.data.count '/' + 1) "..").intersperse "/" |>.flatMap String.data⟩

/-- Node `path.relative`, restricted to the shapes the pipeline produces:
same path gives `""`, an empty or `.` base resolves to the target, a `.`
target climbs out of the base, and a base that prefixes the target is
stripped. -/
def pathRelative (frm tgt : String) : String :=
  if frm = tgt then ""
  else if frm = "" ∨ frm = "." then (if tgt = "." ∨ tgt = "" then "" else tgt)
  else if tgt = "." ∨ tgt = "" then upDirs frm
  else if (frm ++ "/").isPrefixOf tgt then ⟨tgt.data.drop (frm.length + 1)⟩
  else tgt

/-! ## Slug collaborators (src line 166: `slug(normalize(name))`)

`slug` and `normalize` are external npm packages, outside this
repository's source. -/

/-- Is `c` in the URL-safe slug charset (lowercase ASCII letter, ASCII
digit, or hyphen)? -/
def slugCharset (c : Char) : Bool :=
  (97 ≤ c.toNat && c.toNat ≤ 122) || (48 ≤ c.toNat && c.toNat ≤ 57) || c.toNat == 45

/-- Modelled from the spec: one character of the URL-safe-slug transform of
the external `slug` package — letters and digits are kept (uppercase
lowercased), spaces become hyphens, everything else is dropped. -/
def slugChar (c : Char) : Option Char :=
  let n := c.toNat
  if (97 ≤ n && n ≤ 122) || (48 ≤ n && n ≤ 57) then some c
  else if 65 ≤ n && n ≤ 90 then some (Char.ofNat (n + 32))
  else if n == 32 then some (Char.ofNat 45)
  else none

/-- Modelled from the spec: the external `slug` package's URL-safe-slug
transform (deterministic, output restricted to the slug charset). -/
def slugLib (s : String) : String := ⟨s.data.filterMap slugChar⟩

/-- Modelled from the spec: the external `normalization` package's Unicode
normalization; at this embedding's level of abstraction it is the identity
on already-normalized text. -/
def normalize (s : String) : String := s

/-! ## Page resolution (`readPages`, src lines 126-189)

Per discovered filename (loop body, src lines 144-182), split into the
staleness step (lines 146-159) and the derivation step (lines 161-180) so
the intermediate state the spec talks about is addressable.  The external
collaborators appear as parameters: `conv` is `convertCommonmarkToHtml`
(commonmark render piped through the escaper), `fm` is the result of
`yamlFront.loadFront(file, 'content')`, and `mtime` is the parsed current
source modification time (`Date.parse(getModifiedDate(file))`). -/

/-- The front-matter record `yamlFront.loadFront(file, 'content')` returns:
the document's metadata keys (absent keys are `none`) plus the raw body
text under the reserved `content` key (here `body`). -/
structure FrontMatter where
  template : Option String := none
  excerpt : Option String := none
  title : Option String := none
  category : Option String := none
  dateFormatString : Option String := none
  date : Option Nat := none
  slug : Option String := none
  url : Option String := none
  target : Option String := none
  index : Option Bool := none
  sortKey : Option String := none
  sortVal : Option Int := none
  sortReverse : Option Bool := none
  maxSubpages : Option Nat := none
  body : String := ""
deriving DecidableEq, Repr

/-- `_.assign(page, yamlFront.loadFront(file, 'content'))` (src line 154):
keys present in the front matter overwrite the page's fields; the reserved
`content` key always overwrites `content` with the raw body text. -/
def applyFrontMatter (p : Page) (fm : FrontMatter) : Page :=
  { p with
    template := fm.template.getD p.template
    excerpt := fm.excerpt.getD p.excerpt
    title := fm.title.getD p.title
    category := fm.category.getD p.category
    dateFormatString := match fm.dateFormatString with | some s => some s | none => p.dateFormatString
    date := match fm.date with | some d => some d | none => p.date
    slug := fm.slug.getD p.slug
    url := fm.url.getD p.url
    target := fm.target.getD p.target
    index := fm.index.getD p.index
    sortKey := match fm.sortKey with | some s => some s | none => p.sortKey
    sortVal := fm.sortVal.getD p.sortVal
    sortReverse := fm.sortReverse.getD p.sortReverse
    maxSubpages := match fm.maxSubpages with | some k => some k | none => p.maxSubpages
    content := fm.body }

/-- Looking up the discovered file in the dictionary keyed on `filename`
built from the incoming (cached) page list (src lines 136-139; a later
record with the same filename overwrites an earlier one). -/
def cacheLookup (pages : List Page) (file : String) : Option Page :=
  (pages.filter (fun p => p.filename = file)).getLast?

/-- The staleness step of the resolver loop (src lines 146-159): clone the
defaults, `_.assign` the cached record over them (a cached JSON record
carries every field, so the overlay is the record itself), set `filename`,
then compare the current source mtime with the cached `modified`
(`Date.parse` on both; a missing cached value parses to `NaN` and always
differs).  On a difference: re-parse front matter and body, convert the
body to `content`, record the new `modified`.  On equality: skip (the
returned flag, counted in `nSkip`) and keep the cached state. -/
def stalenessStep (conv : String → String) (mtime : Nat) (cached : Option Page)
    (file : String) (fm : FrontMatter) : Page × Bool :=
  let page := { cached.getD defaultPage with filename := file }
  if page.modified ≠ some mtime then
    let page := applyFrontMatter page fm
    ({ page with content := conv page.content, modified := some mtime }, false)
  else
    (page, true)

/-- Src lines 164-167: if `slug` is falsy, derive it from the filename's
base name (extension stripped) through `slug(normalize(...))`. -/
def deriveSlug (p : Page) : Page :=
  if p.slug = "" then
    { p with slug := slugLib (normalize (pathBasename (stripExtOfPathname p.filename))) }
  else p

/-- Src line 168: the unconditional re-run of markup conversion on
`content`. -/
def reconvert (conv : String → String) (p : Page) : Page :=
  { p with content := conv p.content }

/-- Src lines 169-173: if `url` is falsy, derive it from the filename's
directory, the slug and the write extension, relative to the content
root. -/
def deriveUrl (site : Site) (p : Page) : Page :=
  if p.url = "" then
    { p with
      url := pathRelative site.contentDir (pathJoin (pathDirname p.filename) (p.slug ++ site.writeExt)) }
  else p

/-- Src lines 174-176: if `target` is falsy, default it to `url`. -/
def deriveTarget (p : Page) : Page :=
  if p.target = "" then { p with target := p.url } else p

/-- Src lines 177-180: `relSiteUrl` is the path from `target`'s directory
back to the site root, `"."` when that relative path is empty. -/
def deriveRelSiteUrl (p : Page) : Page :=
  let rel := pathRelative (pathDirname p.target) "."
  { p with relSiteUrl := if rel = "" then "." else rel }

/-- The derivation step of the resolver loop (src lines 161-180): normalize
`date` (a no-op in this timestamp model), derive `slug` when falsy,
unconditionally re-convert `content`, derive `url`, `target` and
`relSiteUrl` when falsy. -/
def deriveStep (conv : String → String) (site : Site) (p : Page) : Page :=
  deriveRelSiteUrl (deriveTarget (deriveUrl site (reconvert conv (deriveSlug p))))

/-- One full iteration of the resolver loop for one discovered file:
staleness step then derivation step, plus the skip flag. -/
def resolveFile (conv : String → String) (site : Site) (mtime : Nat)
    (cached : Option Page) (file : String) (fm : FrontMatter) : Page × Bool :=
  let pb := stalenessStep conv mtime cached file fm
  (deriveStep conv site pb.1, pb.2)

/-! ## Index aggregation (`generateIndexableSubpages`, src lines 191-212)

lodash semantics used by the loop body:
* `_.omitBy(site.pages, { index: true })` drops the pages matching
  `index === true` and yields an integer-keyed object whose values keep
  array order; modelled as a list filter.
* `_.filter(…, { category })` and `_.sortBy(…, key)` accept that object
  and return arrays in the same value order; `_.sortBy` is a **stable**
  ascending sort by the named field — embedded as Mathlib's
  `insertionSort` (also stable) on the `sortVal` field.
* `_.reverse` reverses, `_.take` truncates.  When neither the category
  filter nor the sort ran, the collection is still the keyed object from
  `omitBy`, and `_.take` on a non-array returns `[]`; the `isArr` guard
  reproduces that corner.
* The guards are JS truthiness tests: an empty `category`, a `null`/empty
  `sortKey` and a `null`/`0` `maxSubpages` disable their stage. -/

/-- The ascending comparison `_.sortBy` uses on the sort-key field. -/
def leKey (a b : PageCore) : Prop := a.sortVal ≤ b.sortVal

instance : DecidableRel leKey := fun a b => inferInstanceAs (Decidable (a.sortVal ≤ b.sortVal))

/-- The subpage list computed for one index page `p` from the site's page
list (loop body of `generateIndexableSubpages`, src lines 194-207). -/
def generateSubpagesFor (p : PageCore) (pages : List PageCore) : List PageCore :=
  let s := pages.filter (fun q => !q.index)
  let s := if p.category ≠ "" then s.filter (fun q => q.category == p.category) else s
  let s := if jsTruthyStr p.sortKey then
      (let t := List.insertionSort leKey s; if p.sortReverse then t.reverse else t)
    else s
  let isArr := p.category ≠ "" ∨ jsTruthyStr p.sortKey
  if jsTruthyNum p.maxSubpages then (if isArr then s.take (p.maxSubpages.getD 0) else []) else s

/-- `generateIndexableSubpages` (src lines 191-212): every page with
`index = true` gets the computed list assigned to its `subpages`; other
pages are untouched.  (`subpages` is never read by the selection itself,
so the sequential in-place mutation of the JS loop equals this map.) -/
def generateIndexableSubpages (pages : List Page) : List Page :=
  pages.map fun p =>
    if p.index then { p with subpages := generateSubpagesFor p.toPageCore (pages.map Page.toPageCore) } else p

/-! ## Page writing (`getTemplateDir` and `writePages`, src lines 214-275) -/

/-- `getTemplateDir` (src lines 214-228): search, in order, the source
file's own directory, the configured template directory and the built-in
`defaults` directory for a file named `page.template`; `fsEx` is
`fs.existsSync` and `defaultsDir` stands for `path.join(__dirname,
'defaults')`.  Returns `none` (JS `null`) when no location matches. -/
def getTemplateDir (fsEx : String → Bool) (defaultsDir : String) (page : Page) (site : Site) :
    Option String :=
  let dirs := [pathDirname page.filename, site.templateDir, defaultsDir]
  (dirs.map (fun d => pathJoin d page.template)).find? fsEx

/-- The skip test of `writePages` (src lines 244-252), with the file-system
facts as values: `ex` is `isFile(outHtml)`, `onDisk` the parsed on-disk
modification time, `pWrite`/`pMod` the parsed `page.writeTime` /
`page.modified` (`none` = missing, whose `Date.parse` is `NaN`; `NaN`
compares false).  Skip when the output exists, its mtime equals the
recorded `writeTime`, and it is not older than `modified`. -/
def writeSkip (ex : Bool) (onDisk : Nat) (pWrite pMod : Option Nat) : Bool :=
  if ex then
    if jsEqTime onDisk pWrite then jsGeTime onDisk pMod else false
  else false

/-- What the write step does for one page. -/
inductive WriteOutcome where
  | skipped
  | wrote (text : String)
deriving DecidableEq, Repr

/-- The render-and-write tail of the `writePages` loop body (src lines
254-267), reached when the skip rule does not fire: resolve a template; if
the resolved path ends in `pug`, render it over `{page, site}` through the
external pug engine (`pugRender`); otherwise — including when no template
was found, since `_.endsWith(null, 'pug')` is false — write `page.content`
verbatim. -/
def writeBody (fsEx : String → Bool) (defaultsDir : String)
    (pugRender : String → Page → Site → String) (site : Site) (page : Page) : WriteOutcome :=
  match getTemplateDir fsEx defaultsDir page site with
  | some tp => if tp.endsWith "pug" then .wrote (pugRender tp page site) else .wrote page.content
  | none => .wrote page.content

/-- One iteration of the `writePages` loop (src lines 232-269) after the
date-formatting prologue (lines 233-240, which only feeds the render
context): compute the output path, apply the skip rule, otherwise resolve
a template; if the resolved path ends in `pug` (`_.endsWith(null, 'pug')`
is false, so a missing template never matches), render through `pugRender`
(the external pug engine on `{page, site}`), else write `page.content`
verbatim.  `fsMtime` gives an existing file's parsed mtime (`none` when
absent, so `isFile` is `(fsMtime outHtml).isSome`). -/
def writeStep (fsMtime : String → Option Nat) (fsEx : String → Bool) (defaultsDir : String)
    (pugRender : String → Page → Site → String) (site : Site) (page : Page) : WriteOutcome :=
  let outHtml := pathJoin site.outputDir page.target
  let skip := match fsMtime outHtml with
    | some t => writeSkip true t page.writeTime page.modified
    | none => false
  if skip then .skipped
  else writeBody fsEx defaultsDir pugRender site page

/-! ## `processSite` (src lines 277-294): cache loading and saving -/

/-- Reading the property `site.forced` (src line 278): the site object
(src lines 316-330) defines `force` but never `forced`, and no assignment
anywhere creates a `forced` property, so the lookup yields `undefined`. -/
def siteForcedProp (_ : Site) : Option Bool := none

/-- The cache-load guard of `processSite` (src line 278):
`!site.forced && isFile(site.cachedPages)`. -/
def loadsCache (isF : String → Bool) (site : Site) : Bool :=
  !(jsTruthyBool (siteForcedProp site)) && isF site.cachedPages

/-- The in-memory page set at the start of resolution (src lines 278-282):
the cached records are parsed and concatenated onto `site.pages` exactly
when the cache-load guard passes. -/
def initialPages (isF : String → Bool) (cacheContents : List Page) (site : Site) : List Page :=
  if loadsCache isF site then site.pages ++ cacheContents else site.pages

/-- The cache-save step of `processSite` (src lines 289-293): every page's
`subpages` is cleared in place (`_.map` with a mutating callback) before
`JSON.stringify` serializes the list; the returned list is the sequence of
records the persisted cache holds. -/
def saveCachedPages (pages : List Page) : List Page :=
  pages.map fun p => { p with subpages := [] }

/-! ## Spec-side aggregation order

To state the tie-break policy precisely, tag each candidate with its
discovery position and compare lexicographically.  With distinct tags the
sorted sequence is canonical, so "descending by field value with a fixed
tie order" is unambiguous. -/

/-- Tag a list's elements with their positions, starting at `n`. -/
def tagFrom {α : Type} (n : Nat) : List α → List (Nat × α)
  | [] => []
  | a :: l => (n, a) :: tagFrom (n + 1) l

/-- Ascending by sort value, ties by ascending discovery position — the
canonical "stable ascending sort" order on tagged candidates. -/
def lexAsc (a b : Nat × PageCore) : Prop :=
  a.2.sortVal < b.2.sortVal ∨ (a.2.sortVal = b.2.sortVal ∧ a.1 ≤ b.1)

instance : DecidableRel lexAsc := fun a b =>
  inferInstanceAs (Decidable (a.2.sortVal < b.2.sortVal ∨ (a.2.sortVal = b.2.sortVal ∧ a.1 ≤ b.1)))

/-- Descending by sort value, ties by ascending discovery position — the
claim's "descending by field value, equal keys in original discovery
order". -/
def lexDescOrig (a b : Nat × PageCore) : Prop :=
  b.2.sortVal < a.2.sortVal ∨ (a.2.sortVal = b.2.sortVal ∧ a.1 ≤ b.1)

instance : DecidableRel lexDescOrig := fun a b =>
  inferInstanceAs (Decidable (b.2.sortVal < a.2.sortVal ∨ (a.2.sortVal = b.2.sortVal ∧ a.1 ≤ b.1)))

/-- The candidate set of an index page `p`: all non-index pages whose
`category` matches `p`'s, in discovery order. -/
def candidatesFor (p : PageCore) (pages : List PageCore) : List PageCore :=
  (pages.filter (fun q => !q.index)).filter (fun q => q.category == p.category)

/-- Spec's words as written in the claim: the top-`k` candidates ordered by
**descending** field value with equal-key pages kept in their **original
discovery order** (sort the tagged candidates by `lexDescOrig`, drop the
tags, truncate). -/
def specTopKOrigTies (cs : List PageCore) (k : Nat) : List PageCore :=
  ((List.insertionSort lexDescOrig (tagFrom 0 cs)).map Prod.snd).take k

/-- The amended ordering: descending field value with equal-key pages in
**reverse** discovery order — the reverse of the canonical stable
ascending sort, truncated. -/
def specTopKRevTies (cs : List PageCore) (k : Nat) : List PageCore :=
  (((List.insertionSort lexAsc (tagFrom 0 cs)).map Prod.snd).reverse).take k

/-! ## Helper lemmas: the escaping function -/

lemma decDigitsAux_mem_range : ∀ (fuel n d : Nat), d ∈ decDigitsAux fuel n → 48 ≤ d ∧ d ≤ 57 := by
  intro fuel
  induction fuel with
  | zero => intro n d h; simp [decDigitsAux] at h
  | succ fuel ih =>
    intro n d h
    simp only [decDigitsAux] at h
    split at h
    · next hlt =>
      simp only [List.mem_singleton] at h
      omega
    · next hge =>
      rcases List.mem_append.mp h with h1 | h1
      · exact ih _ _ h1
      · simp only [List.mem_singleton] at h1
        have : n % 10 < 10 := Nat.mod_lt _ (by omega)
        omega

lemma decDigits_mem_range (n d : Nat) (h : d ∈ decDigits n) : 48 ≤ d ∧ d ≤ 57 :=
  decDigitsAux_mem_range _ _ _ h

lemma escapeUnit_ascii (c d : Nat) (h : d ∈ escapeUnit c) : d ≤ 127 := by
  unfold escapeUnit at h
  split at h
  · next hle => simp only [List.mem_singleton] at h; omega
  · next hgt =>
    simp only [numericRef, List.mem_cons, List.mem_append, List.mem_singleton] at h
    rcases h with rfl | rfl | h | h1
    · omega
    · omega
    · have := decDigits_mem_range _ _ h; omega
    · rcases h1 with rfl | h1
      · omega
      · simp at h1

lemma convertUnicode_output_ascii (us : List Nat) (u : Nat)
    (h : u ∈ convertUnicodeCharsToHtml us) : u ≤ 127 := by
  unfold convertUnicodeCharsToHtml at h
  rcases List.mem_flatMap.mp h with ⟨c, _, hmem⟩
  exact escapeUnit_ascii c u hmem

lemma convertUnicode_ascii_id (us : List Nat) (h : ∀ u ∈ us, u ≤ 127) :
    convertUnicodeCharsToHtml us = us := by
  induction us with
  | nil => rfl
  | cons c us ih =>
    have hc : c ≤ 127 := h c (List.mem_cons_self ..)
    have ht : ∀ u ∈ us, u ≤ 127 := fun u hu => h u (List.mem_cons_of_mem _ hu)
    simp only [convertUnicodeCharsToHtml, List.flatMap_cons] at *
    rw [ih ht]
    simp [escapeUnit, hc]

/-- C6 (amended): for input whose characters all lie in the Basic
Multilingual Plane, the escaping replaces every character above code
point 127 with its numeric character reference and passes every ASCII
character through unchanged.  (The amendment restricts the claim to the
BMP: the function works on UTF-16 code units, so a supplementary-plane
character is split into two surrogate references instead of its own
reference — see the counterexample.) -/
theorem escape_bmp_refs (cps : List Nat) (h : ∀ c ∈ cps, c < 65536) :
    convertUnicodeCharsToHtml (utf16Encode cps)
      = cps.flatMap (fun c => if c ≤ 127 then [c] else numericRef c) := by
  induction cps with
  | nil => rfl
  | cons c cs ih =>
    have hc : c < 65536 := h c (List.mem_cons_self ..)
    have ht : ∀ u ∈ cs, u < 65536 := fun u hu => h u (List.mem_cons_of_mem _ hu)
    have h1 : utf16Unit c = [c] := by unfold utf16Unit; rw [if_pos hc]
    simp only [utf16Encode, convertUnicodeCharsToHtml, List.flatMap_cons,
      List.flatMap_append] at *
    rw [h1]
    simp only [List.flatMap_cons, List.flatMap_nil, List.append_nil]
    rw [ih ht]
    rfl

/-- C6 witness: `é` (U+00E9) becomes the literal `&#233;` while the ASCII
characters `H` and `i` pass through ( `[38, 35, 50, 51, 51, 59]` is
`"&#233;"` as character codes). -/
theorem escape_bmp_refs_witness :
    (∀ c ∈ [233, 72, 105], c < 65536)
      ∧ convertUnicodeCharsToHtml (utf16Encode [233, 72, 105])
          = [38, 35, 50, 51, 51, 59, 72, 105] := by
  refine ⟨by decide, ?_⟩
  rw [escape_bmp_refs [233, 72, 105] (by decide)]
  decide

/-- C6 counterexample against the claim as stated: the supplementary-plane
character U+1F600 (code point 128512, above 127) is **not** replaced by
its numeric character reference `&#128512;`; the function escapes its two
UTF-16 surrogates separately, producing `&#55357;&#56832;`. -/
theorem escape_astral_counterexample :
    convertUnicodeCharsToHtml (utf16Encode [128512]) = numericRef 55357 ++ numericRef 56832
      ∧ convertUnicodeCharsToHtml (utf16Encode [128512]) ≠ numericRef 128512 := by
  decide

/-- C10: the escaping function is idempotent — its output is all-ASCII and
it is the identity on all-ASCII input, so a second application changes
nothing. -/
theorem escape_idempotent (us : List Nat) :
    convertUnicodeCharsToHtml (convertUnicodeCharsToHtml us) = convertUnicodeCharsToHtml us
      ∧ (∀ u ∈ convertUnicodeCharsToHtml us, u ≤ 127)
      ∧ ((∀ u ∈ us, u ≤ 127) → convertUnicodeCharsToHtml us = us) :=
  ⟨convertUnicode_ascii_id _ (fun u hu => convertUnicode_output_ascii us u hu),
   fun u hu => convertUnicode_output_ascii us u hu,
   fun h => convertUnicode_ascii_id us h⟩

/-- C10 witness: idempotence, output ASCII-ness and ASCII-identity checked
on concrete inputs (`[65, 233]` is `"Aé"`, whose escape starts with
`&` = 38). -/
theorem escape_idempotent_witness :
    convertUnicodeCharsToHtml (convertUnicodeCharsToHtml [65, 233])
        = convertUnicodeCharsToHtml [65, 233]
      ∧ (38 : Nat) ≤ 127
      ∧ convertUnicodeCharsToHtml [65] = [65] :=
  ⟨(escape_idempotent [65, 233]).1,
   (escape_idempotent [65, 233]).2.1 38 (by decide),
   (escape_idempotent [65]).2.2 (by decide)⟩

/-- C2: the `force` flag does **not** bypass cache loading.  The guard at
src line 278 tests `site.forced`, a property the site object never
defines (the flag is stored under `force`, src lines 329/333), so the
lookup is always `undefined` and the guard depends only on the cache
file's existence: whenever the cache file exists — even with
`force = true` — the cached records are concatenated onto the page set,
which therefore differs from the no-cache-file page set as soon as the
cache is nonempty. -/
theorem force_flag_ignored (isF : String → Bool) (site : Site) (cache : List Page)
    (_hforce : site.force = true) (hfile : isF site.cachedPages = true) :
    loadsCache isF site = true
      ∧ initialPages isF cache site = site.pages ++ cache
      ∧ (cache ≠ [] → initialPages isF cache site ≠ site.pages) := by
  have hl : loadsCache isF site = true := by
    simp [loadsCache, siteForcedProp, jsTruthyBool, hfile]
  refine ⟨hl, by simp [initialPages, hl], fun hne => ?_⟩
  simp only [initialPages, hl, if_true]
  intro heq
  have := congrArg List.length heq
  simp [List.length_append] at this
  exact hne this

/-- C2 witness: a concrete site with `force = true` and an existing,
nonempty cache file still loads the cache, and the resulting page set is
not the no-cache page set. -/
theorem force_flag_ignored_witness :
    loadsCache (fun _ => true) { force := true, cachedPages := "cache.json" } = true
      ∧ initialPages (fun _ => true) [defaultPage] { force := true, cachedPages := "cache.json" }
          = ({ force := true, cachedPages := "cache.json" } : Site).pages ++ [defaultPage]
      ∧ initialPages (fun _ => true) [defaultPage] { force := true, cachedPages := "cache.json" }
          ≠ ({ force := true, cachedPages := "cache.json" } : Site).pages := by
  have h := force_flag_ignored (fun _ => true) { force := true, cachedPages := "cache.json" }
    [defaultPage] rfl rfl
  exact ⟨h.1, h.2.1, h.2.2 (by simp)⟩

/-- C8: every record in the persisted cache has an empty `subpages` list —
the save step clears `subpages` on every page before serialization and
changes nothing else, so a cache produced by a save can never hand a
nonempty `subpages` back to the next run. -/
theorem cache_subpages_cleared (pages : List Page) :
    ((saveCachedPages pages).all fun p => p.subpages.isEmpty) = true
      ∧ (saveCachedPages pages).map Page.toPageCore = pages.map Page.toPageCore := by
  constructor
  · simp [saveCachedPages, List.all_eq_true]
  · simp [saveCachedPages]

lemma writeSkip_iff (ex : Bool) (onDisk : Nat) (pW pM : Option Nat) :
    writeSkip ex onDisk pW pM = true ↔
      ex = true ∧ pW = some onDisk ∧ ∃ m, pM = some m ∧ m ≤ onDisk := by
  unfold writeSkip jsEqTime jsGeTime
  cases ex with
  | false => simp
  | true =>
    cases pW with
    | none => simp
    | some w =>
      cases pM with
      | none =>
        rw [if_pos rfl]
        constructor
        · intro h; split at h <;> cases h
        · rintro ⟨-, -, m, hm, -⟩; cases hm
      | some m =>
        constructor
        · intro h
          rw [if_pos rfl] at h
          by_cases hw : onDisk = w
          · subst hw
            rw [if_pos (by simp)] at h
            simp only [decide_eq_true_eq, ge_iff_le] at h
            exact ⟨rfl, rfl, m, rfl, h⟩
          · rw [if_neg (by simpa using hw)] at h
            cases h
        · rintro ⟨-, hww, m2, hm2, hle⟩
          cases hww
          cases hm2
          rw [if_pos rfl, if_pos (by simp)]
          simpa using hle

lemma writeBody_wrote (fsEx : String → Bool) (defaultsDir : String)
    (pugRender : String → Page → Site → String) (site : Site) (page : Page) :
    ∃ text, writeBody fsEx defaultsDir pugRender site page = .wrote text := by
  unfold writeBody
  split
  · split
    · exact ⟨_, rfl⟩
    · exact ⟨_, rfl⟩
  · exact ⟨_, rfl⟩

lemma writeStep_skipped_iff (fsMtime : String → Option Nat) (fsEx : String → Bool)
    (defaultsDir : String) (pugRender : String → Page → Site → String)
    (site : Site) (page : Page) :
    writeStep fsMtime fsEx defaultsDir pugRender site page = .skipped ↔
      (match fsMtime (pathJoin site.outputDir page.target) with
        | some t => writeSkip true t page.writeTime page.modified
        | none => false) = true := by
  unfold writeStep
  dsimp only
  constructor
  · intro h
    by_contra hb
    rw [if_neg hb] at h
    rcases writeBody_wrote fsEx defaultsDir pugRender site page with ⟨text, ht⟩
    rw [ht] at h
    cases h
  · intro h
    rw [if_pos h]

lemma writeStep_skipped_or_wrote (fsMtime : String → Option Nat) (fsEx : String → Bool)
    (defaultsDir : String) (pugRender : String → Page → Site → String)
    (site : Site) (page : Page) :
    writeStep fsMtime fsEx defaultsDir pugRender site page = .skipped
      ∨ ∃ text, writeStep fsMtime fsEx defaultsDir pugRender site page = .wrote text := by
  unfold writeStep
  dsimp only
  split
  · exact Or.inl rfl
  · exact Or.inr (writeBody_wrote fsEx defaultsDir pugRender site page)

/-- C5: the write-skip rule, exactly as the spec states it: a page's write
is skipped iff the output file exists, its on-disk modification time
equals the page's recorded `writeTime`, and that time is not older than
the page's `modified`; a missing `writeTime` or `modified` (whose
`Date.parse` is `NaN`) never satisfies the comparisons.  In every other
case the step produces a write. -/
theorem write_skip_rule (fsMtime : String → Option Nat) (fsEx : String → Bool)
    (defaultsDir : String) (pugRender : String → Page → Site → String)
    (site : Site) (page : Page) :
    (writeStep fsMtime fsEx defaultsDir pugRender site page = .skipped ↔
      ∃ t, fsMtime (pathJoin site.outputDir page.target) = some t
        ∧ page.writeTime = some t
        ∧ ∃ m, page.modified = some m ∧ m ≤ t)
      ∧ (writeStep fsMtime fsEx defaultsDir pugRender site page ≠ .skipped →
          ∃ text, writeStep fsMtime fsEx defaultsDir pugRender site page = .wrote text) := by
  refine ⟨?_, fun h => ?_⟩
  · rw [writeStep_skipped_iff]
    cases hmt : fsMtime (pathJoin site.outputDir page.target) with
    | none => simp
    | some t =>
      dsimp only
      rw [writeSkip_iff]
      constructor
      · rintro ⟨-, hwt, m, hm, hle⟩
        exact ⟨t, rfl, hwt, m, hm, hle⟩
      · rintro ⟨u, hu, hwt, m, hm, hle⟩
        cases hu
        exact ⟨rfl, hwt, m, hm, hle⟩
  · rcases writeStep_skipped_or_wrote fsMtime fsEx defaultsDir pugRender site page with
      hs | ⟨text, ht⟩
    · exact absurd hs h
    · exact ⟨text, ht⟩

/-- C5 witness: a page whose output file exists with mtime 10, recorded
`writeTime` 10 and `modified` 5 is skipped; a page with no output file is
written. -/
theorem write_skip_rule_witness :
    writeStep (fun _ => some 10) (fun _ => true) "defaults" (fun _ _ _ => "R")
        { outputDir := "out" } { target := "a.html", writeTime := some 10, modified := some 5 }
      = .skipped
      ∧ ∃ text, writeStep (fun _ => none) (fun _ => false) "defaults" (fun _ _ _ => "R")
          { outputDir := "out" } { target := "a.html" } = .wrote text :=
  ⟨(write_skip_rule (fun _ => some 10) (fun _ => true) "defaults" (fun _ _ _ => "R")
      { outputDir := "out" } { target := "a.html", writeTime := some 10, modified := some 5 }).1.mpr
      ⟨10, rfl, rfl, 5, rfl, by omega⟩,
   (write_skip_rule (fun _ => none) (fun _ => false) "defaults" (fun _ _ _ => "R")
      { outputDir := "out" } { target := "a.html" }).2 (by decide)⟩

/-! ## Helper lemmas: the staleness step and the derivation step -/

lemma stalenessStep_of_ne (conv : String → String) (mtime : Nat) (cached : Option Page)
    (file : String) (fm : FrontMatter)
    (h : (cached.getD defaultPage).modified ≠ some mtime) :
    stalenessStep conv mtime cached file fm =
      ({ applyFrontMatter { cached.getD defaultPage with filename := file } fm with
          content := conv fm.body, modified := some mtime }, false) := by
  unfold stalenessStep
  dsimp only
  split
  · rfl
  · next hcond => exact absurd (not_not.mp hcond) h

lemma stalenessStep_of_eq (conv : String → String) (mtime : Nat) (cached : Option Page)
    (file : String) (fm : FrontMatter)
    (h : (cached.getD defaultPage).modified = some mtime) :
    stalenessStep conv mtime cached file fm =
      ({ cached.getD defaultPage with filename := file }, true) := by
  unfold stalenessStep
  dsimp only
  split
  · next hcond => exact absurd h hcond
  · rfl

lemma deriveSlug_content (p : Page) : (deriveSlug p).content = p.content := by
  unfold deriveSlug; split <;> rfl

lemma deriveUrl_content (site : Site) (p : Page) : (deriveUrl site p).content = p.content := by
  unfold deriveUrl; split <;> rfl

lemma deriveTarget_content (p : Page) : (deriveTarget p).content = p.content := by
  unfold deriveTarget; split <;> rfl

lemma deriveRelSiteUrl_content (p : Page) : (deriveRelSiteUrl p).content = p.content := rfl

lemma reconvert_content (conv : String → String) (p : Page) :
    (reconvert conv p).content = conv p.content := rfl

lemma deriveStep_content (conv : String → String) (site : Site) (p : Page) :
    (deriveStep conv site p).content = conv p.content := by
  unfold deriveStep
  rw [deriveRelSiteUrl_content, deriveTarget_content, deriveUrl_content, reconvert_content,
    deriveSlug_content]

lemma deriveUrl_slug (site : Site) (p : Page) : (deriveUrl site p).slug = p.slug := by
  unfold deriveUrl; split <;> rfl

lemma deriveTarget_slug (p : Page) : (deriveTarget p).slug = p.slug := by
  unfold deriveTarget; split <;> rfl

lemma deriveRelSiteUrl_slug (p : Page) : (deriveRelSiteUrl p).slug = p.slug := rfl

lemma reconvert_slug (conv : String → String) (p : Page) : (reconvert conv p).slug = p.slug := rfl

lemma deriveStep_slug_of_empty (conv : String → String) (site : Site) (p : Page)
    (h : p.slug = "") :
    (deriveStep conv site p).slug
      = slugLib (normalize (pathBasename (stripExtOfPathname p.filename))) := by
  unfold deriveStep
  rw [deriveRelSiteUrl_slug, deriveTarget_slug, deriveUrl_slug, reconvert_slug]
  unfold deriveSlug
  rw [if_pos h]

/-- C3: the per-file staleness rule of the resolver — if the current source
modification time differs from the cached `modified` (including a missing
cached value), the page is re-parsed: front matter overlays the cached
state, the body goes through the markup converter into `content`, and
`modified` is updated; if the two are equal, the step is skipped (the
`true` flag is what `nSkip` counts) and the cached state is kept unchanged
for this step. -/
theorem resolver_staleness (conv : String → String) (mtime : Nat) (cached : Option Page)
    (file : String) (fm : FrontMatter) :
    ((cached.getD defaultPage).modified ≠ some mtime →
      stalenessStep conv mtime cached file fm =
        ({ applyFrontMatter { cached.getD defaultPage with filename := file } fm with
            content := conv fm.body, modified := some mtime }, false))
      ∧ ((cached.getD defaultPage).modified = some mtime →
        stalenessStep conv mtime cached file fm =
          ({ cached.getD defaultPage with filename := file }, true)) :=
  ⟨stalenessStep_of_ne conv mtime cached file fm,
   stalenessStep_of_eq conv mtime cached file fm⟩

/-- Concrete markup converter for witnesses. -/
def convW : String → String := fun s => "<p>" ++ s ++ "</p>"

/-- Concrete cached page record for witnesses (`modified` 5). -/
def cachedW : Page := { defaultPage with modified := some 5, content := "<h1>old</h1>", title := "Old" }

/-- Concrete front-matter record for witnesses. -/
def fmW : FrontMatter := { title := some "New", body := "hello" }

/-- Concrete site for witnesses. -/
def siteW : Site := { contentDir := "content" }

/-- C3 witness: with the cached `modified` at 5, a current mtime of 7
re-parses (and converts the body), while a current mtime of 5 skips and
keeps the cached record. -/
theorem resolver_staleness_witness :
    stalenessStep convW 7 (some cachedW) "a.md" fmW =
        ({ applyFrontMatter { cachedW with filename := "a.md" } fmW with
            content := convW fmW.body, modified := some 7 }, false)
      ∧ stalenessStep convW 5 (some cachedW) "a.md" fmW =
          ({ cachedW with filename := "a.md" }, true) :=
  ⟨(resolver_staleness convW 7 (some cachedW) "a.md" fmW).1 (by decide),
   (resolver_staleness convW 5 (some cachedW) "a.md" fmW).2 (by decide)⟩

/-- C4: markup conversion is re-applied to `content` after the staleness
step regardless of its outcome (src line 168) — the resolved page's
`content` is always the converter applied to the post-staleness-step
`content`; in particular, for an unchanged source (equal timestamps,
where `content` already holds the previously converted HTML) the
converter still runs once more on that cached `content`. -/
theorem reconversion_always (conv : String → String) (site : Site) (mtime : Nat)
    (cached : Option Page) (file : String) (fm : FrontMatter) :
    (resolveFile conv site mtime cached file fm).1.content
        = conv ((stalenessStep conv mtime cached file fm).1).content
      ∧ ((cached.getD defaultPage).modified = some mtime →
          (resolveFile conv site mtime cached file fm).1.content
            = conv ((cached.getD defaultPage).content)) := by
  constructor
  · exact deriveStep_content conv site _
  · intro h
    have h1 : (resolveFile conv site mtime cached file fm).1.content
        = conv ((stalenessStep conv mtime cached file fm).1).content :=
      deriveStep_content conv site _
    rw [h1, stalenessStep_of_eq conv mtime cached file fm h]

/-- C4 witness: with equal timestamps the resolved content is the converter
re-applied to the cached (already converted) content. -/
theorem reconversion_always_witness :
    (resolveFile convW siteW 5 (some cachedW) "a.md" fmW).1.content
        = convW ((stalenessStep convW 5 (some cachedW) "a.md" fmW).1).content
      ∧ (resolveFile convW siteW 5 (some cachedW) "a.md" fmW).1.content
          = convW cachedW.content :=
  ⟨(reconversion_always convW siteW 5 (some cachedW) "a.md" fmW).1,
   (reconversion_always convW siteW 5 (some cachedW) "a.md" fmW).2 (by decide)⟩

/-! ## Helper lemmas: slug charset -/

lemma slugChar_charset (c d : Char) (h : slugChar c = some d) : slugCharset d = true := by
  unfold slugChar at h
  dsimp only at h
  split at h
  · next hin =>
    cases h
    simp only [slugCharset, Bool.or_eq_true, Bool.and_eq_true, decide_eq_true_eq, beq_iff_eq]
    simp only [Bool.or_eq_true, Bool.and_eq_true, decide_eq_true_eq] at hin
    omega
  · split at h
    · next hup =>
      cases h
      simp only [Bool.and_eq_true, decide_eq_true_eq] at hup
      obtain ⟨h1, h2⟩ := hup
      have h3 : c.toNat + 32 ≤ 122 := by omega
      have h4 : 97 ≤ c.toNat + 32 := by omega
      set n := c.toNat with hn
      interval_cases n <;> decide
    · split at h
      · cases h; decide
      · cases h

lemma slugLib_charset (s : String) (d : Char) (h : d ∈ (slugLib s).data) :
    slugCharset d = true := by
  unfold slugLib at h
  rcases List.mem_filterMap.mp h with ⟨c, _, hc⟩
  exact slugChar_charset c d hc

/-- C9: a page lacking an explicit slug after the cache overlay and
front-matter parse gets the deterministic derivation
`slug(normalize(basename(filename-without-extension)))`, and every
character of the result lies in the URL-safe slug charset. -/
theorem slug_derivation (conv : String → String) (site : Site) (p : Page)
    (h : p.slug = "") :
    (deriveStep conv site p).slug
        = slugLib (normalize (pathBasename (stripExtOfPathname p.filename)))
      ∧ ∀ c ∈ ((deriveStep conv site p).slug).data, slugCharset c = true := by
  have h1 := deriveStep_slug_of_empty conv site p h
  refine ⟨h1, fun c hc => ?_⟩
  rw [h1] at hc
  exact slugLib_charset _ c hc

/-- Concrete page for the C9 witness: no explicit slug, mixed-case
filename with a space. -/
def pSlugW : Page := { defaultPage with filename := "posts/Hello World.md" }

/-- C9 witness: the derived slug for `posts/Hello World.md` is
`hello-world`, and its first character is in the slug charset. -/
theorem slug_derivation_witness :
    (deriveStep convW siteW pSlugW).slug
        = slugLib (normalize (pathBasename (stripExtOfPathname pSlugW.filename)))
      ∧ slugCharset 'h' = true :=
  ⟨(slug_derivation convW siteW pSlugW rfl).1,
   (slug_derivation convW siteW pSlugW rfl).2 'h' (by decide)⟩

/-! ## C7: a missing template does not fail the write step

When no search location has the template, `getTemplateDir` returns `null`;
`_.endsWith(null, 'pug')` is `false`, so the pug branch is never taken and
`writePages` falls through to writing `page.content` verbatim — no error
is raised and the run continues. -/

/-- Concrete page for C7: a template name found nowhere. -/
def pTmplW : Page :=
  { defaultPage with
    filename := "a.md"
    template := "missing.pug"
    target := "a.html"
    content := "<h1>raw</h1>" }

/-- C7 counterexample: with a file system containing no template at all,
template resolution yields `none`, yet the write step for the page does
**not** fail — it completes normally, writing the page's `content`
verbatim (the only possible outcomes are `skipped` and `wrote`; there is
no error path in the loop body). -/
theorem template_miss_counterexample :
    getTemplateDir (fun _ => false) "defaults" pTmplW { outputDir := "out" } = none
      ∧ writeStep (fun _ => none) (fun _ => false) "defaults" (fun _ _ _ => "R")
          { outputDir := "out" } pTmplW = .wrote "<h1>raw</h1>" := by
  constructor
  · rfl
  · rfl

/-- C7 (amended): when a page's template name matches no file in any of
the three search locations and its output is not already up to date, the
write step does not fail: the page's raw `content` is written verbatim
and the run continues. -/
theorem template_miss_raw_passthrough (fsMtime : String → Option Nat) (fsEx : String → Bool)
    (defaultsDir : String) (pugRender : String → Page → Site → String)
    (site : Site) (page : Page)
    (hno : getTemplateDir fsEx defaultsDir page site = none)
    (hout : fsMtime (pathJoin site.outputDir page.target) = none) :
    writeStep fsMtime fsEx defaultsDir pugRender site page = .wrote page.content := by
  unfold writeStep
  dsimp only
  rw [hout]
  rw [if_neg (by simp)]
  unfold writeBody
  rw [hno]

/-- C7 amended-claim witness: concrete page, empty file system. -/
theorem template_miss_raw_passthrough_witness :
    writeStep (fun _ => none) (fun _ => false) "defaults" (fun _ _ _ => "R")
        { outputDir := "out" } pTmplW = .wrote pTmplW.content :=
  template_miss_raw_passthrough (fun _ => none) (fun _ => false) "defaults" (fun _ _ _ => "R")
    { outputDir := "out" } pTmplW (by decide) rfl

/-! ## C1: the aggregation order

`_.sortBy` sorts **ascending** and stably; `_.reverse` then flips the
whole array, so equal-key pages end up in the *reverse* of their
discovery order, not in discovery order as the claim states.  The bridge
lemmas below show that the untagged stable ascending sort equals the
tagged lexicographic sort with discovery positions as tie-breakers, which
pins the tie order exactly. -/

lemma tagFrom_fst_ge {α : Type} : ∀ (l : List α) (n : Nat) (q : Nat × α),
    q ∈ tagFrom n l → n ≤ q.1 := by
  intro l
  induction l with
  | nil => intro n q h; simp [tagFrom] at h
  | cons a l ih =>
    intro n q h
    rcases List.mem_cons.mp h with rfl | h1
    · exact Nat.le_refl n
    · have := ih (n + 1) q h1
      omega

lemma map_snd_orderedInsert (i : Nat) (a : PageCore) (ts : List (Nat × PageCore))
    (h : ∀ q ∈ ts, i < q.1) :
    (List.orderedInsert lexAsc (i, a) ts).map Prod.snd
      = List.orderedInsert leKey a (ts.map Prod.snd) := by
  induction ts with
  | nil => rfl
  | cons b ts ih =>
    have hib : i < b.1 := h b (List.mem_cons_self ..)
    by_cases hle : leKey a b.2
    · have hlex : lexAsc (i, a) b := by
        rcases lt_or_eq_of_le hle with hlt | heq
        · exact Or.inl hlt
        · exact Or.inr ⟨heq, Nat.le_of_lt hib⟩
      simp only [List.orderedInsert]
      rw [if_pos hlex, if_pos hle]
      rfl
    · have hnlex : ¬ lexAsc (i, a) b := by
        intro hl
        rcases hl with hlt | ⟨heq, _⟩
        · exact hle (le_of_lt hlt)
        · exact hle (le_of_eq heq)
      simp only [List.orderedInsert]
      rw [if_neg hnlex, if_neg hle]
      simp only [List.map_cons]
      rw [ih (fun q hq => h q (List.mem_cons_of_mem _ hq))]

lemma map_snd_insertionSort : ∀ (cs : List PageCore) (n : Nat),
    (List.insertionSort lexAsc (tagFrom n cs)).map Prod.snd = List.insertionSort leKey cs := by
  intro cs
  induction cs with
  | nil => intro n; rfl
  | cons a cs ih =>
    intro n
    have hmem : ∀ q ∈ List.insertionSort lexAsc (tagFrom (n + 1) cs), n < q.1 := by
      intro q hq
      have h1 : q ∈ tagFrom (n + 1) cs :=
        (List.perm_insertionSort lexAsc (tagFrom (n + 1) cs)).mem_iff.mp hq
      have h2 := tagFrom_fst_ge cs (n + 1) q h1
      omega
    show (List.insertionSort lexAsc ((n, a) :: tagFrom (n + 1) cs)).map Prod.snd = _
    simp only [List.insertionSort]
    rw [map_snd_orderedInsert n a _ hmem, ih (n + 1)]

/-- C1 (amended): for an index page with a nonempty `category`, a truthy
`sortKey`, `sortReverse = true` and `maxSubpages = k ≠ 0`, the computed
subpages are exactly the top-`k` candidates of that category ordered by
**descending** field value with equal-key pages in the **reverse** of
their discovery order (the reverse of the canonical stable ascending
sort, truncated to `k`). -/
theorem aggregation_desc_topk (p : PageCore) (pages : List PageCore) (k : Nat)
    (hcat : p.category ≠ "") (hsk : jsTruthyStr p.sortKey = true)
    (hrev : p.sortReverse = true) (hmax : p.maxSubpages = some k) (hk : k ≠ 0) :
    generateSubpagesFor p pages = specTopKRevTies (candidatesFor p pages) k := by
  have hnum : jsTruthyNum p.maxSubpages = true := by
    rw [hmax]; simp [jsTruthyNum, hk]
  unfold generateSubpagesFor specTopKRevTies candidatesFor
  dsimp only
  rw [if_pos hcat, if_pos hsk, if_pos hrev, if_pos hnum, if_pos (Or.inl hcat), hmax]
  rw [map_snd_insertionSort]
  rfl

/-- Concrete non-index page `A` of category `c`, discovered first, sort
value 1. -/
def pA : PageCore := { title := "A", category := "c", sortVal := 1 }

/-- Concrete non-index page `B` of category `c`, discovered second, same
sort value 1. -/
def pB : PageCore := { title := "B", category := "c", sortVal := 1 }

/-- Concrete index page over category `c`, `sortReverse = true`,
`maxSubpages = 2`. -/
def pIdx : PageCore :=
  { index := true
    category := "c"
    sortKey := some "date"
    sortReverse := true
    maxSubpages := some 2 }

/-- C1 counterexample against the claim as stated: with two equal-key
pages `A`, `B` discovered in that order, the code yields `[B, A]` — the
ties appear in **reverse** discovery order — while the claim's ordering
(descending by value, ties in original discovery order) demands
`[A, B]`. -/
theorem aggregation_tie_order_counterexample :
    generateSubpagesFor pIdx [pIdx, pA, pB] = [pB, pA]
      ∧ specTopKOrigTies (candidatesFor pIdx [pIdx, pA, pB]) 2 = [pA, pB]
      ∧ generateSubpagesFor pIdx [pIdx, pA, pB]
          ≠ specTopKOrigTies (candidatesFor pIdx [pIdx, pA, pB]) 2 := by
  refine ⟨by decide, by decide, ?_⟩
  decide

/-- C1 amended-claim witness: the concrete aggregation matches the
amended ordering. -/
theorem aggregation_desc_topk_witness :
    generateSubpagesFor pIdx [pIdx, pA, pB]
      = specTopKRevTies (candidatesFor pIdx [pIdx, pA, pB]) 2 :=
  aggregation_desc_topk pIdx [pIdx, pA, pB] 2 (by decide) (by decide) rfl rfl (by decide)

end Embellij
